import Mathlib

/-!
Verification development for the MedRouter client repository.

The embedding follows the code under `src/`:
* `src/medrouter/exceptions.py` — the five named exception classes;
* `src/tutos/slicer_runner.py` — the `MedRouterClient` class
  (`__init__`, `_post`, `_poll_until_ready`, `_download`, `run`);
* `src/tutos/get_request.py` — the tutorial polling loop;
* `src/tutos/process_scan.py` — the call into `client.segmentation.process`
  (whose defining module `medrouter/client.py` is not part of `src/`; the
  one definition modelled from the spec is marked as such in its doc comment).

Python exceptions are modelled as an inductive type, fallible operations
return `Except`, HTTP traffic is an explicit environment mapping requests to
responses, and the unbounded `while True` polling loop is modelled with
explicit fuel: `none` means the loop has not finished within the given fuel.
-/

namespace MedRouter

/-- Python exception values that the modelled code can raise.  The last five
constructors embed the classes of `src/medrouter/exceptions.py`; the first
four are the built-in / `requests` exceptions the Slicer client actually
raises (`raise_for_status`, `RuntimeError`, `ValueError`, `dict[...]`). -/
inductive PyExn where
  | httpError (code : Nat)
  | runtimeError (msg : String)
  | valueError (msg : String)
  | keyError (key : String)
  | modelNotFoundError
  | inferenceError
  | apiKeyError
  | unsupportedFileTypeError
  | precheckError
deriving DecidableEq, Repr

/-- Whether an exception is one of the five named classes defined in
`src/medrouter/exceptions.py`. -/
def isNamedMedrouterExn : PyExn → Bool
  | .modelNotFoundError => true
  | .inferenceError => true
  | .apiKeyError => true
  | .unsupportedFileTypeError => true
  | .precheckError => true
  | _ => false

/-- The `output` field of a processed status response: a dictionary mapping a
format key ("nifti", "stl", ...) to a dictionary mapping artifact names to
URLs, modelled as association lists. -/
abbrev Outputs := List (String × List (String × String))

/-- Response to the upload POST (`_post`): HTTP status code and the optional
`request_id` field of the JSON body (`None` when the field is absent). -/
structure UploadResp where
  code : Nat
  request_id : Option String
deriving DecidableEq, Repr

/-- Response to a status GET (`_poll_until_ready`): HTTP status code, the
optional `status` field and the optional `output` field of the JSON body. -/
structure StatusResp where
  code : Nat
  status : Option String
  output : Option Outputs
deriving DecidableEq, Repr

/-- The network environment a workflow run interacts with: the upload
response, the status response to the i-th status GET, and the HTTP status
code returned when downloading a given URL. -/
structure Env where
  upload : UploadResp
  statuses : Nat → StatusResp
  downloadCode : String → Nat

/-- `requests.Response.raise_for_status` raises exactly for client-error and
server-error codes, i.e. `400 ≤ code < 600`.  (A 1xx/3xx response is non-2xx
but does not raise.) -/
def raiseForStatus (code : Nat) : Bool :=
  decide (400 ≤ code) && decide (code < 600)

/-- The state of a constructed `MedRouterClient` (from `__init__` of
`src/tutos/slicer_runner.py`): `model_id` is stored as a string
(`str(model_id)`), the rest as given. -/
structure Client where
  apiKey : String
  model : String
  modelId : String
  uploadFormat : String
  downloadFormat : String
  extraOutput : Option String
  pollDelay : Int
deriving DecidableEq, Repr

/-- Arguments of `MedRouterClient.__init__`. -/
structure InitArgs where
  apiKey : String
  model : String
  modelId : Int
  uploadFormat : String := "nifti"
  downloadFormat : String := "nifti"
  extraOutput : Option String := none
  pollDelay : Int := 20
deriving DecidableEq, Repr

/-- `MedRouterClient.__init__`: validates the two formats (raising
`ValueError` otherwise) and stores the fields; no other validation occurs. -/
def initClient (a : InitArgs) : Except PyExn Client :=
  if ¬ (a.uploadFormat = "nifti" ∨ a.uploadFormat = "dicom") then
    .error (.valueError "upload_format must be nifti or dicom")
  else if ¬ (a.downloadFormat = "nifti" ∨ a.downloadFormat = "stl") then
    .error (.valueError "download_format must be nifti or stl")
  else
    .ok { apiKey := a.apiKey, model := a.model, modelId := toString a.modelId,
          uploadFormat := a.uploadFormat, downloadFormat := a.downloadFormat,
          extraOutput := a.extraOutput, pollDelay := a.pollDelay }

/-- The form-data payload built by `_post`: always `model`, `model_id` and
`notes`; `extra_output_type` is added only when `self.extra_output` is truthy
(not `None` and not the empty string). -/
def mkPayload (c : Client) (notes : String) : List (String × String) :=
  let base := [("model", c.model), ("model_id", c.modelId), ("notes", notes)]
  match c.extraOutput with
  | none => base
  | some s => if s = "" then base else base ++ [("extra_output_type", s)]

/-- `MedRouterClient._post` applied to the upload response: raise on a
4xx/5xx code, then raise `RuntimeError` when `request_id` is absent or falsy
(the empty string), otherwise return the identifier. -/
def post (r : UploadResp) : Except PyExn String :=
  if raiseForStatus r.code then .error (.httpError r.code)
  else
    match r.request_id with
    | none => .error (.runtimeError "Upload succeeded but no request_id returned.")
    | some rid =>
      if rid = "" then .error (.runtimeError "Upload succeeded but no request_id returned.")
      else .ok rid

/-- `MedRouterClient._poll_until_ready`, a `while True` loop, modelled with
fuel.  Each iteration issues one status GET (`get k` is the response to the
k-th GET), raises on a 4xx/5xx code, returns `info["output"]` when the
`status` field equals "processed" (raising `KeyError` when `output` is
absent), and otherwise waits and loops.  The result is `none` when the loop
has not finished within `fuel` iterations, paired with the number of status
GETs performed. -/
def pollUntilReady (get : Nat → StatusResp) : Nat → Nat → Option (Except PyExn Outputs) × Nat
  | 0, _ => (none, 0)
  | fuel + 1, k =>
    let r := get k
    if raiseForStatus r.code then (some (.error (.httpError r.code)), 1)
    else if r.status = some "processed" then
      match r.output with
      | some o => (some (.ok o), 1)
      | none => (some (.error (.keyError "output")), 1)
    else
      let p := pollUntilReady get fuel (k + 1)
      (p.1, p.2 + 1)

/-- The one-second sleeps performed between two polls:
`for _ in range(self.poll_delay): time.sleep(1)`.  `range` of a negative
integer is empty, so the list has `max 0 poll_delay` elements. -/
def pollSleeps (c : Client) : List Int :=
  List.replicate c.pollDelay.toNat 1

/-- Total seconds actually waited between two polls. -/
def pollWaitTotal (c : Client) : Int :=
  (pollSleeps c).sum

/-- The local file name `_download` gives an artifact: `<name>.nii.gz` when
the wanted format is "nifti", `<name>.stl` otherwise. -/
def localName (want : String) (name : String) : String :=
  name ++ "." ++ (if want = "nifti" then "nii.gz" else "stl")

/-- The download loop of `_download` over the (name, url) pairs under the
wanted format key: each iteration issues a GET for the url and raises on a
4xx/5xx code.  Returns the name-to-local-file mapping (or the raised
exception) together with the list of URLs actually requested. -/
def downloadItems (env : Env) (want : String) :
    List (String × String) → Except PyExn (List (String × String)) × List String
  | [] => (.ok [], [])
  | (name, url) :: rest =>
    if raiseForStatus (env.downloadCode url) then
      (.error (.httpError (env.downloadCode url)), [url])
    else
      let p := downloadItems env want rest
      match p.1 with
      | .ok files => (.ok ((name, localName want name) :: files), url :: p.2)
      | .error e => (.error e, url :: p.2)

/-- `MedRouterClient._download`: raise `RuntimeError` when the configured
download format key is absent from the outputs dictionary, otherwise download
every named URL under that key. -/
def download (c : Client) (env : Env) (outputs : Outputs) :
    Except PyExn (List (String × String)) × List String :=
  match List.lookup c.downloadFormat outputs with
  | none => (.error (.runtimeError ("No " ++ c.downloadFormat ++ " outputs from server.")), [])
  | some items => downloadItems env c.downloadFormat items

/-- An HTTP request issued by the workflow: the upload POST, the i-th status
GET, or the download GET for a URL. -/
inductive Req where
  | upload
  | statusGet (i : Nat)
  | download (url : String)
deriving DecidableEq, Repr

/-- The HTTP status code the environment answers a given request with. -/
def respCode (env : Env) : Req → Nat
  | .upload => env.upload.code
  | .statusGet i => (env.statuses i).code
  | .download u => env.downloadCode u

/-- The URL of a download request, `none` for the other requests. -/
def reqUrl : Req → Option String
  | .upload => none
  | .statusGet _ => none
  | .download u => some u

/-- `MedRouterClient.run` (its HTTP part): `_post`, then `_poll_until_ready`
(with the given fuel), then `_download`.  Returns the final outcome (`none`
when polling has not finished within the fuel) together with the ordered
list of HTTP requests issued. -/
def runFuel (c : Client) (env : Env) (fuel : Nat) :
    Option (Except PyExn (List (String × String))) × List Req :=
  match post env.upload with
  | .error e => (some (.error e), [.upload])
  | .ok _rid =>
    let p := pollUntilReady env.statuses fuel 0
    let strace := (List.range p.2).map Req.statusGet
    match p.1 with
    | none => (none, .upload :: strace)
    | some (.error e) => (some (.error e), .upload :: strace)
    | some (.ok outputs) =>
      let d := download c env outputs
      (some d.1, .upload :: strace ++ d.2.map Req.download)

/-- Modelled from the spec: the library client (`medrouter/client.py`, the
`MedRouter` class whose `segmentation.process` operation is called by
`src/tutos/process_scan.py` with `check_interval` and `max_retries`) is not
under `src/`.  Following the spec, Poll repeatedly queries the status
endpoint, bounded by the maximum retry count, until the status becomes
terminal ("processed" or "failed").  Returns the last status response seen
together with the number of status queries performed. -/
def processPoll (get : Nat → StatusResp) : Nat → Nat → StatusResp × Nat
  | 0, k => (get k, 1)
  | m + 1, k =>
    let r := get k
    if r.status = some "processed" ∨ r.status = some "failed" then (r, 1)
    else
      let p := processPoll get m (k + 1)
      (p.1, p.2 + 1)

/-- The polling loop of `src/tutos/get_request.py`, modelled with fuel over
the stream of `status` fields (`response.get("status")`): `while True`,
breaking exactly when the status is "processed" or "failed".  Returns the
index at which the loop broke, `none` when it has not broken within the
fuel. -/
def getRequestLoop (get : Nat → Option String) : Nat → Nat → Option Nat
  | 0, _ => none
  | fuel + 1, k =>
    if get k = some "processed" ∨ get k = some "failed" then some k
    else getRequestLoop get fuel (k + 1)

/-! ### Concrete clients, streams and environments for evaluations -/

/-- The client constructed by the usage example at the bottom of
`src/tutos/slicer_runner.py`. -/
def sampleClient : Client :=
  { apiKey := "API-KEY", model := "total-segmentator", modelId := "570",
    uploadFormat := "nifti", downloadFormat := "nifti",
    extraOutput := none, pollDelay := 20 }

/-- A status stream that forever answers 200 with status "pending". -/
def pendingStream : Nat → StatusResp :=
  fun _ => { code := 200, status := some "pending", output := none }

/-- A status stream that forever answers 200 with status "failed". -/
def failedStream : Nat → StatusResp :=
  fun _ => { code := 200, status := some "failed", output := none }

/-- An environment whose upload POST is answered with a 500 error. -/
def env500 : Env :=
  { upload := { code := 500, request_id := none }
  , statuses := fun _ => { code := 200, status := none, output := none }
  , downloadCode := fun _ => 200 }

/-- An environment whose upload POST is answered with a 304 redirect code
(non-2xx) carrying a request id, and whose job is immediately processed. -/
def redirectEnv : Env :=
  { upload := { code := 304, request_id := some "r1" }
  , statuses := fun _ =>
      { code := 200, status := some "processed"
      , output := some [("nifti", [("a", "u1")])] }
  , downloadCode := fun _ => 200 }

/-- An environment whose processed response offers outputs under both the
"nifti" and the "stl" keys. -/
def dualEnv : Env :=
  { upload := { code := 200, request_id := some "r1" }
  , statuses := fun _ =>
      { code := 200, status := some "processed"
      , output := some [("nifti", [("a", "u1")]), ("stl", [("b", "u2")])] }
  , downloadCode := fun _ => 200 }

/-- An environment in which every artifact download is answered with 404. -/
def badDownloadEnv : Env :=
  { upload := { code := 200, request_id := some "r1" }
  , statuses := fun _ => { code := 200, status := none, output := none }
  , downloadCode := fun _ => 404 }

/-! ### Helper lemmas about the polling loop -/

theorem poll_no_exit (get : Nat → StatusResp)
    (h : ∀ k, raiseForStatus (get k).code = false ∧ (get k).status ≠ some "processed") :
    ∀ fuel k, pollUntilReady get fuel k = (none, fuel) := by
  intro fuel
  induction fuel with
  | zero => intro k; rfl
  | succ n ih =>
    intro k
    simp only [pollUntilReady, (h k).1, Bool.false_eq_true, if_false, if_neg (h k).2, ih (k + 1)]

theorem poll_bad_last (get : Nat → StatusResp) :
    ∀ fuel k res n, pollUntilReady get fuel k = (res, n) →
      ∀ j, j < n → raiseForStatus (get (k + j)).code = true →
        j + 1 = n ∧ res = some (.error (.httpError (get (k + j)).code)) := by
  intro fuel
  induction fuel with
  | zero =>
    intro k res n h j hj _
    simp only [pollUntilReady] at h
    cases h
    exact absurd hj (Nat.not_lt_zero j)
  | succ fuel ih =>
    intro k res n h j hj hbad
    simp only [pollUntilReady] at h
    by_cases hb : raiseForStatus (get k).code = true
    · rw [if_pos hb] at h
      cases h
      have hj0 : j = 0 := by omega
      subst hj0
      exact ⟨rfl, by rw [Nat.add_zero]⟩
    · rw [if_neg hb] at h
      by_cases hp : (get k).status = some "processed"
      · rw [if_pos hp] at h
        rcases ho : (get k).output with _ | o <;> rw [ho] at h <;> cases h <;>
          · have hj0 : j = 0 := by omega
            subst hj0
            simp only [Nat.add_zero] at hbad
            exact absurd hbad hb
      · rw [if_neg hp] at h
        cases h
        rcases j with _ | j'
        · simp only [Nat.add_zero] at hbad
          exact absurd hbad hb
        · have hidx : k + 1 + j' = k + (j' + 1) := by omega
          have hrec := ih (k + 1) (pollUntilReady get fuel (k + 1)).1
            (pollUntilReady get fuel (k + 1)).2 rfl j' (by omega)
            (by rw [hidx]; exact hbad)
          rw [hidx] at hrec
          exact ⟨by omega, hrec.2⟩

theorem poll_ok_processed (get : Nat → StatusResp) :
    ∀ fuel k o n, pollUntilReady get fuel k = (some (.ok o), n) →
      1 ≤ n ∧ (get (k + n - 1)).status = some "processed" ∧
        (get (k + n - 1)).output = some o ∧ raiseForStatus (get (k + n - 1)).code = false := by
  intro fuel
  induction fuel with
  | zero =>
    intro k o n h
    simp only [pollUntilReady] at h
    cases h
  | succ fuel ih =>
    intro k o n h
    simp only [pollUntilReady] at h
    by_cases hb : raiseForStatus (get k).code = true
    · rw [if_pos hb] at h
      cases h
    · rw [if_neg hb] at h
      by_cases hp : (get k).status = some "processed"
      · rw [if_pos hp] at h
        rcases ho : (get k).output with _ | o2 <;> rw [ho] at h <;> cases h
        refine ⟨Nat.le_refl 1, ?_, ?_, ?_⟩
        · simpa using hp
        · simpa using ho
        · simpa using hb
      · rw [if_neg hp] at h
        have h1 : (pollUntilReady get fuel (k + 1)).1 = some (.ok o) := by
          have := congrArg Prod.fst h
          exact this
        have h2 : (pollUntilReady get fuel (k + 1)).2 + 1 = n := congrArg Prod.snd h
        have hrec := ih (k + 1) o (pollUntilReady get fuel (k + 1)).2 (by rw [← h1])
        have hidx : k + 1 + (pollUntilReady get fuel (k + 1)).2 - 1 = k + n - 1 := by omega
        rw [hidx] at hrec
        exact ⟨by omega, hrec.2.1, hrec.2.2.1, hrec.2.2.2⟩

theorem poll_error_shape (get : Nat → StatusResp) :
    ∀ fuel k e n, pollUntilReady get fuel k = (some (.error e), n) →
      (∃ c, e = .httpError c) ∨ e = .keyError "output" := by
  intro fuel
  induction fuel with
  | zero =>
    intro k e n h
    simp only [pollUntilReady] at h
    cases h
  | succ fuel ih =>
    intro k e n h
    simp only [pollUntilReady] at h
    by_cases hb : raiseForStatus (get k).code = true
    · rw [if_pos hb] at h
      cases h
      exact Or.inl ⟨(get k).code, rfl⟩
    · rw [if_neg hb] at h
      by_cases hp : (get k).status = some "processed"
      · rw [if_pos hp] at h
        rcases ho : (get k).output with _ | o2 <;> rw [ho] at h <;> cases h
        exact Or.inr rfl
      · rw [if_neg hp] at h
        have h1 : (pollUntilReady get fuel (k + 1)).1 = some (.error e) := congrArg Prod.fst h
        exact ih (k + 1) e (pollUntilReady get fuel (k + 1)).2 (by rw [← h1])

/-! ### Helper lemmas about post and download -/

theorem post_bad (r : UploadResp) (h : raiseForStatus r.code = true) :
    post r = .error (.httpError r.code) := by
  simp [post, h]

theorem post_ok_code (r : UploadResp) (s : String) (h : post r = .ok s) :
    raiseForStatus r.code = false := by
  by_contra hb
  simp only [Bool.not_eq_false] at hb
  rw [post_bad r hb] at h
  cases h

theorem post_error_shape (r : UploadResp) (e : PyExn) (h : post r = .error e) :
    (∃ c, e = .httpError c) ∨ ∃ m, e = .runtimeError m := by
  simp only [post] at h
  by_cases hb : raiseForStatus r.code = true
  · rw [if_pos hb] at h
    cases h
    exact Or.inl ⟨r.code, rfl⟩
  · rw [if_neg hb] at h
    rcases hr : r.request_id with _ | rid <;> simp only [hr] at h
    · cases h
      exact Or.inr ⟨_, rfl⟩
    · by_cases he : rid = ""
      · rw [if_pos he] at h
        cases h
        exact Or.inr ⟨_, rfl⟩
      · rw [if_neg he] at h
        cases h

theorem downloadItems_all_good (env : Env) (want : String) :
    ∀ items : List (String × String),
      (∀ p ∈ items, raiseForStatus (env.downloadCode p.2) = false) →
      downloadItems env want items =
        (.ok (items.map fun p => (p.1, localName want p.1)), items.map Prod.snd) := by
  intro items
  induction items with
  | nil => intro _; rfl
  | cons hd tl ih =>
    intro h
    obtain ⟨name, url⟩ := hd
    have hhd : raiseForStatus (env.downloadCode url) = false := h (name, url) (by simp)
    have htl := ih (fun p hp => h p (by simp [hp]))
    simp only [downloadItems, hhd, Bool.false_eq_true, if_false, htl, List.map]

theorem downloadItems_ok (env : Env) (want : String) :
    ∀ items files urls, downloadItems env want items = (.ok files, urls) →
      files = items.map (fun p => (p.1, localName want p.1)) ∧
        urls = items.map Prod.snd ∧
        ∀ p ∈ items, raiseForStatus (env.downloadCode p.2) = false := by
  intro items
  induction items with
  | nil =>
    intro files urls h
    simp only [downloadItems] at h
    cases h
    exact ⟨rfl, rfl, by simp⟩
  | cons hd tl ih =>
    intro files urls h
    obtain ⟨name, url⟩ := hd
    simp only [downloadItems] at h
    by_cases hb : raiseForStatus (env.downloadCode url) = true
    · rw [if_pos hb] at h
      cases h
    · rw [if_neg hb] at h
      rcases hres : (downloadItems env want tl).1 with e | files2 <;> simp only [hres] at h
      · cases h
      · have hrec := ih files2 (downloadItems env want tl).2 (by rw [← hres])
        cases h
        refine ⟨by simp [hrec.1], by simp [hrec.2.1], ?_⟩
        intro p hp
        rcases List.mem_cons.mp hp with hp | hp
        · simp only [hp]
          simpa using hb
        · exact hrec.2.2 p hp

theorem downloadItems_bad_last (env : Env) (want : String) :
    ∀ items res urls, downloadItems env want items = (res, urls) →
      ∀ u ∈ urls, raiseForStatus (env.downloadCode u) = true →
        (∃ pre, urls = pre ++ [u]) ∧ res = .error (.httpError (env.downloadCode u)) := by
  intro items
  induction items with
  | nil =>
    intro res urls h u hu _
    simp only [downloadItems] at h
    cases h
    cases hu
  | cons hd tl ih =>
    intro res urls h u hu hbad
    obtain ⟨name, url⟩ := hd
    simp only [downloadItems] at h
    by_cases hb : raiseForStatus (env.downloadCode url) = true
    · rw [if_pos hb] at h
      cases h
      rcases List.mem_cons.mp hu with hu | hu
      · subst hu
        exact ⟨⟨[], rfl⟩, rfl⟩
      · exact absurd hu (List.not_mem_nil u)
    · rw [if_neg hb] at h
      rcases hres : (downloadItems env want tl).1 with e | files2
      · simp only [hres] at h
        cases h
        rcases List.mem_cons.mp hu with hu | hu
        · subst hu
          exact absurd hbad hb
        · have hrec := ih (downloadItems env want tl).1 (downloadItems env want tl).2 rfl u hu hbad
          rw [hres] at hrec
          obtain ⟨⟨pre, hpre⟩, hresq⟩ := hrec
          exact ⟨⟨url :: pre, by simp [hpre]⟩, hresq⟩
      · simp only [hres] at h
        cases h
        rcases List.mem_cons.mp hu with hu | hu
        · subst hu
          exact absurd hbad hb
        · have hrec := ih (downloadItems env want tl).1 (downloadItems env want tl).2 rfl u hu hbad
          rw [hres] at hrec
          cases hrec.2

theorem downloadItems_error_shape (env : Env) (want : String) :
    ∀ items e urls, downloadItems env want items = (.error e, urls) →
      ∃ c, e = .httpError c := by
  intro items
  induction items with
  | nil =>
    intro e urls h
    simp only [downloadItems] at h
    cases h
  | cons hd tl ih =>
    intro e urls h
    obtain ⟨name, url⟩ := hd
    simp only [downloadItems] at h
    by_cases hb : raiseForStatus (env.downloadCode url) = true
    · rw [if_pos hb] at h
      cases h
      exact ⟨_, rfl⟩
    · rw [if_neg hb] at h
      rcases hres : (downloadItems env want tl).1 with e2 | files2
      · simp only [hres] at h
        cases h
        exact ih e (downloadItems env want tl).2 (by rw [← hres])
      · simp only [hres] at h
        cases h

theorem downloadItems_error_iff (env : Env) (want : String) :
    ∀ items : List (String × String),
      (∃ e, (downloadItems env want items).1 = .error e) ↔
        ∃ p ∈ items, raiseForStatus (env.downloadCode p.2) = true := by
  intro items
  induction items with
  | nil => simp [downloadItems]
  | cons hd tl ih =>
    obtain ⟨name, url⟩ := hd
    by_cases hb : raiseForStatus (env.downloadCode url) = true
    · simp only [downloadItems, hb, if_true]
      constructor
      · intro _
        exact ⟨(name, url), List.mem_cons_self _ _, hb⟩
      · intro _
        exact ⟨.httpError (env.downloadCode url), rfl⟩
    · simp only [downloadItems, hb, Bool.false_eq_true, if_false]
      rcases hres : (downloadItems env want tl).1 with e2 | files2
      · simp only [hres]
        constructor
        · intro _
          have := ih.mp ⟨e2, hres⟩
          obtain ⟨p, hp, hpb⟩ := this
          exact ⟨p, by simp [hp], hpb⟩
        · intro _
          exact ⟨e2, rfl⟩
      · simp only [hres]
        constructor
        · intro ⟨e, he⟩
          cases he
        · intro ⟨p, hp, hpb⟩
          rcases List.mem_cons.mp hp with hp | hp
          · subst hp
            exact absurd hpb hb
          · have := ih.mpr ⟨p, hp, hpb⟩
            obtain ⟨e, he⟩ := this
            rw [hres] at he
            cases he

theorem download_error_shape (c : Client) (env : Env) (outputs : Outputs) (e : PyExn)
    (urls : List String) (h : download c env outputs = (.error e, urls)) :
    (∃ k, e = .httpError k) ∨ ∃ m, e = .runtimeError m := by
  simp only [download] at h
  rcases hl : List.lookup c.downloadFormat outputs with _ | items
  · rw [hl] at h
    cases h
    exact Or.inr ⟨_, rfl⟩
  · rw [hl] at h
    exact Or.inl (downloadItems_error_shape env c.downloadFormat items e urls h)

/-! ### Claim theorems -/

/-- C1 (counterexample): the Slicer client poll loop `_poll_until_ready` has
no retry bound: on a stream of 200/"pending" responses it never finishes —
after any amount of fuel it has returned nothing — and the number of status
queries grows with the fuel, so no bound on the number of queries exists. -/
theorem slicer_poll_unbounded_on_pending :
    (¬ ∃ fuel, ((pollUntilReady pendingStream fuel 0).1.isSome = true)) ∧
      ∀ fuel, (pollUntilReady pendingStream fuel 0).2 = fuel := by
  have hall : ∀ fuel k, pollUntilReady pendingStream fuel k = (none, fuel) :=
    poll_no_exit pendingStream (fun _ => ⟨rfl, by simp [pendingStream]⟩)
  constructor
  · rintro ⟨fuel, hf⟩
    rw [hall fuel 0] at hf
    cases hf
  · intro fuel
    rw [hall fuel 0]

/-- C1 (amended): the library operation `segmentation.process` (modelled from
the spec, its module being absent from `src/`) performs at most
`maxRetries + 1` status queries, so it terminates even when the status never
becomes terminal; the Slicer client loop has no such bound. -/
theorem process_poll_query_bound (get : Nat → StatusResp) (maxRetries k : Nat) :
    (processPoll get maxRetries k).2 ≤ maxRetries + 1 := by
  induction maxRetries generalizing k with
  | zero => exact Nat.le_refl 1
  | succ m ih =>
    simp only [processPoll]
    by_cases ht : (get k).status = some "processed" ∨ (get k).status = some "failed"
    · rw [if_pos ht]
      omega
    · rw [if_neg ht]
      have := ih (k + 1)
      simpa using Nat.succ_le_succ this

/-- C2 (counterexample): on a stream of 200/"failed" responses the Slicer
client poll loop does not exit: three iterations of fuel are consumed, three
status queries are made, and the loop is still running, although the very
first response already had the terminal status "failed". -/
theorem slicer_poll_ignores_failed :
    (failedStream 0).status = some "failed" ∧
      pollUntilReady failedStream 3 0 = (none, 3) := ⟨rfl, rfl⟩

/-- C2 (amended): the tutorial loop of `src/tutos/get_request.py` exits
exactly when the status is "processed" or "failed" (and otherwise keeps
polling), while the Slicer client loop `_poll_until_ready` returns outputs
only on "processed" and keeps polling on every other status — "failed"
included. -/
theorem poll_exit_conditions :
    (∀ get fuel k j, getRequestLoop get fuel k = some j →
        (get j = some "processed" ∨ get j = some "failed")) ∧
    (∀ get fuel k, (get k = some "processed" ∨ get k = some "failed") →
        getRequestLoop get (fuel + 1) k = some k) ∧
    (∀ get fuel k, ¬ (get k = some "processed" ∨ get k = some "failed") →
        getRequestLoop get (fuel + 1) k = getRequestLoop get fuel (k + 1)) ∧
    (∀ get fuel k o n, pollUntilReady get fuel k = (some (.ok o), n) →
        (get (k + n - 1)).status = some "processed") ∧
    (∀ get fuel k o, raiseForStatus (get k).code = false →
        (get k).status = some "processed" → (get k).output = some o →
        pollUntilReady get (fuel + 1) k = (some (.ok o), 1)) ∧
    (∀ get fuel k, raiseForStatus (get k).code = false →
        (get k).status ≠ some "processed" →
        pollUntilReady get (fuel + 1) k =
          ((pollUntilReady get fuel (k + 1)).1, (pollUntilReady get fuel (k + 1)).2 + 1)) := by
  refine ⟨?_, ?_, ?_, ?_, ?_, ?_⟩
  · intro get fuel
    induction fuel with
    | zero =>
      intro k j h
      cases h
    | succ fuel ih =>
      intro k j h
      simp only [getRequestLoop] at h
      by_cases ht : get k = some "processed" ∨ get k = some "failed"
      · rw [if_pos ht] at h
        cases h
        exact ht
      · rw [if_neg ht] at h
        exact ih (k + 1) j h
  · intro get fuel k h
    simp only [getRequestLoop, if_pos h]
  · intro get fuel k h
    simp only [getRequestLoop, if_neg h]
  · intro get fuel k o n h
    exact (poll_ok_processed get fuel k o n h).2.1
  · intro get fuel k o hb hp ho
    simp only [pollUntilReady, hb, Bool.false_eq_true, if_false, if_pos hp, ho]
  · intro get fuel k hb hp
    simp only [pollUntilReady, hb, Bool.false_eq_true, if_false, if_neg hp]

/-- Witness for C2 at concrete inputs: a "failed" response makes the
tutorial loop exit at that very index (and the status there is terminal),
a "pending" response makes it continue, and a processed response with an
`output` field makes the Slicer loop return the outputs after one query. -/
theorem poll_exit_conditions_witness :
    getRequestLoop (fun _ => some "failed") 1 0 = some 0 ∧
    ((some "failed" : Option String) = some "processed" ∨
      (some "failed" : Option String) = some "failed") ∧
    getRequestLoop (fun _ => some "pending") 1 0 = getRequestLoop (fun _ => some "pending") 0 1 ∧
    pollUntilReady
      (fun _ => ({ code := 200, status := some "processed", output := some [] } : StatusResp)) 1 0 =
      (some (.ok []), 1) :=
  ⟨poll_exit_conditions.2.1 (fun _ => some "failed") 0 0 (Or.inr rfl),
   poll_exit_conditions.1 (fun _ => some "failed") 1 0 0 rfl,
   poll_exit_conditions.2.2.1 (fun _ => some "pending") 0 0 (by simp),
   poll_exit_conditions.2.2.2.2.1
     (fun _ => { code := 200, status := some "processed", output := some [] }) 0 0 [] rfl rfl rfl⟩

/-- C5: on a 2xx upload response, `_post` returns the identifier in the
`request_id` field, and raises `RuntimeError` (returning nothing) when the
field is absent or empty. -/
theorem post_returns_request_id (r : UploadResp) (h2 : 200 ≤ r.code) (h3 : r.code < 300) :
    ((r.request_id = none ∨ r.request_id = some "") →
      post r = .error (.runtimeError "Upload succeeded but no request_id returned.")) ∧
    ∀ s, r.request_id = some s → s ≠ "" → post r = .ok s := by
  have hb : raiseForStatus r.code = false := by
    simp only [raiseForStatus, Bool.and_eq_false_iff, decide_eq_false_iff_not, not_le, not_lt]
    omega
  constructor
  · rintro (hr | hr) <;> simp [post, hb, hr]
  · intro s hr hs
    simp [post, hb, hr, hs]

/-- Witness for C5 at a concrete 2xx response carrying `request_id` "abc". -/
theorem post_returns_request_id_witness :
    post { code := 200, request_id := some "abc" } = .ok "abc" :=
  (post_returns_request_id { code := 200, request_id := some "abc" }
    (by decide) (by decide)).2 "abc" rfl (by simp)

/-- C7 (counterexample): the constructor performs no non-negativity check:
constructing a client with `poll_delay = -5` succeeds and the stored polling
interval is negative, so the claimed invariant does not hold after
construction. -/
theorem negative_poll_delay_accepted :
    ∃ c, initClient { apiKey := "k", model := "m", modelId := 570, pollDelay := -5 } = .ok c ∧
      c.pollDelay < 0 :=
  ⟨_, rfl, by decide⟩

/-- C7 (amended): the constructor stores the polling interval unvalidated
(so a negative value can be stored), but the effective wait between two
polls — `range(poll_delay)` sleeps of one second — is `max 0 poll_delay`
seconds and therefore never negative. -/
theorem effective_wait_nonneg (a : InitArgs) (c : Client) (h : initClient a = .ok c) :
    c.pollDelay = a.pollDelay ∧ 0 ≤ pollWaitTotal c ∧
      pollWaitTotal c = max 0 a.pollDelay := by
  simp only [initClient] at h
  split at h
  · cases h
  · split at h
    · cases h
    · cases h
      have hsum : pollWaitTotal
          { apiKey := a.apiKey, model := a.model, modelId := toString a.modelId,
            uploadFormat := a.uploadFormat, downloadFormat := a.downloadFormat,
            extraOutput := a.extraOutput, pollDelay := a.pollDelay } =
          ((a.pollDelay.toNat : Nat) : Int) := by
        simp [pollWaitTotal, pollSleeps]
      refine ⟨rfl, ?_, ?_⟩ <;> rw [hsum] <;> omega

/-- Witness for C7: the default client of the usage example (interval 20)
keeps its interval and waits exactly 20 seconds between polls. -/
theorem effective_wait_nonneg_witness :
    sampleClient.pollDelay =
      ({ apiKey := "API-KEY", model := "total-segmentator", modelId := 570,
         uploadFormat := "nifti", downloadFormat := "nifti",
         extraOutput := none, pollDelay := 20 } : InitArgs).pollDelay ∧
    0 ≤ pollWaitTotal sampleClient ∧
    pollWaitTotal sampleClient =
      max 0 ({ apiKey := "API-KEY", model := "total-segmentator", modelId := 570,
               uploadFormat := "nifti", downloadFormat := "nifti",
               extraOutput := none, pollDelay := 20 } : InitArgs).pollDelay :=
  effective_wait_nonneg
    { apiKey := "API-KEY", model := "total-segmentator", modelId := 570,
      uploadFormat := "nifti", downloadFormat := "nifti",
      extraOutput := none, pollDelay := 20 } sampleClient rfl

/-- C8: the upload payload always carries `model`, `model_id` (the
constructor argument converted to a string) and `notes`, and carries
`extra_output_type` exactly when an extra output type was provided and is
not the empty string (a falsy value is omitted by `if self.extra_output`). -/
theorem payload_fields (a : InitArgs) (c : Client) (notes : String)
    (h : initClient a = .ok c) :
    List.lookup "model" (mkPayload c notes) = some a.model ∧
    List.lookup "model_id" (mkPayload c notes) = some (toString a.modelId) ∧
    List.lookup "notes" (mkPayload c notes) = some notes ∧
    ((∃ v, List.lookup "extra_output_type" (mkPayload c notes) = some v) ↔
      ∃ s, a.extraOutput = some s ∧ s ≠ "") := by
  simp only [initClient] at h
  split at h
  · cases h
  · split at h
    · cases h
    · cases h
      rcases ha : a.extraOutput with _ | s
      · simp [mkPayload, ha, List.lookup]
      · by_cases hs : s = ""
        · simp [mkPayload, ha, hs, List.lookup]
        · simp [mkPayload, ha, hs, List.lookup]

/-- Witness for C8 at concrete arguments: extra output "ply" provided and
nonempty, so the payload carries all four fields. -/
theorem payload_fields_witness :
    List.lookup "model" (mkPayload
      { apiKey := "k", model := "total-segmentator", modelId := "258",
        uploadFormat := "nifti", downloadFormat := "nifti",
        extraOutput := some "ply", pollDelay := 20 } "note") = some "total-segmentator" ∧
    List.lookup "model_id" (mkPayload
      { apiKey := "k", model := "total-segmentator", modelId := "258",
        uploadFormat := "nifti", downloadFormat := "nifti",
        extraOutput := some "ply", pollDelay := 20 } "note") = some (toString (258 : Int)) ∧
    List.lookup "notes" (mkPayload
      { apiKey := "k", model := "total-segmentator", modelId := "258",
        uploadFormat := "nifti", downloadFormat := "nifti",
        extraOutput := some "ply", pollDelay := 20 } "note") = some "note" ∧
    ((∃ v, List.lookup "extra_output_type" (mkPayload
      { apiKey := "k", model := "total-segmentator", modelId := "258",
        uploadFormat := "nifti", downloadFormat := "nifti",
        extraOutput := some "ply", pollDelay := 20 } "note") = some v) ↔
      ∃ s, (some "ply" : Option String) = some s ∧ s ≠ "") :=
  payload_fields
    { apiKey := "k", model := "total-segmentator", modelId := 258,
      uploadFormat := "nifti", downloadFormat := "nifti",
      extraOutput := some "ply", pollDelay := 20 } _ "note" rfl

/-- C9: the constructor raises `ValueError` exactly when the upload format is
neither "nifti" nor "dicom" or the download format is neither "nifti" nor
"stl"; on success the stored formats are the ones given. -/
theorem init_validates_formats (a : InitArgs) :
    ((∃ m, initClient a = .error (.valueError m)) ↔
      ¬ ((a.uploadFormat = "nifti" ∨ a.uploadFormat = "dicom") ∧
         (a.downloadFormat = "nifti" ∨ a.downloadFormat = "stl"))) ∧
    ∀ c, initClient a = .ok c →
      c.uploadFormat = a.uploadFormat ∧ c.downloadFormat = a.downloadFormat := by
  constructor
  · by_cases h1 : a.uploadFormat = "nifti" ∨ a.uploadFormat = "dicom"
    · by_cases h2 : a.downloadFormat = "nifti" ∨ a.downloadFormat = "stl"
      · simp [initClient, h1, h2]
      · simp [initClient, h1, h2]
    · simp [initClient, h1]
  · intro c h
    simp only [initClient] at h
    split at h
    · cases h
    · split at h
      · cases h
      · cases h
        exact ⟨rfl, rfl⟩

/-- Witness for C9 at concrete arguments with valid formats "dicom" / "stl":
construction succeeds and stores exactly those formats. -/
theorem init_validates_formats_witness :
    ∀ c, initClient { apiKey := "k", model := "m", modelId := 1,
                      uploadFormat := "dicom", downloadFormat := "stl" } = .ok c →
      c.uploadFormat = "dicom" ∧ c.downloadFormat = "stl" := by
  intro c h
  exact (init_validates_formats
    { apiKey := "k", model := "m", modelId := 1,
      uploadFormat := "dicom", downloadFormat := "stl" }).2 c h

/-- C3 (counterexample): a handled failure — a 2xx upload response with the
`request_id` field missing — is surfaced as `RuntimeError`, which is not one
of the five named exceptions of `src/medrouter/exceptions.py`. -/
theorem missing_request_id_raises_runtime_error :
    post { code := 200, request_id := none } =
      .error (.runtimeError "Upload succeeded but no request_id returned.") ∧
    isNamedMedrouterExn (.runtimeError "Upload succeeded but no request_id returned.") =
      false := ⟨rfl, rfl⟩

/-- C3 (amended): every failure the Slicer client workflow surfaces is an
`HTTPError` (for a 4xx/5xx response), a `RuntimeError` (missing or empty
`request_id`, missing download-format key) or a `KeyError` (processed
response without an `output` field); none of them is one of the five named
exceptions of `src/medrouter/exceptions.py`, which the code under `src/`
defines but never raises. -/
theorem run_error_kinds (c : Client) (env : Env) (fuel : Nat) (e : PyExn) (tr : List Req)
    (h : runFuel c env fuel = (some (.error e), tr)) :
    isNamedMedrouterExn e = false ∧
      ((∃ k, e = .httpError k) ∨ (∃ m, e = .runtimeError m) ∨ ∃ s, e = .keyError s) := by
  have hshape : (∃ k, e = .httpError k) ∨ (∃ m, e = .runtimeError m) ∨ ∃ s, e = .keyError s := by
    simp only [runFuel] at h
    rcases hpost : post env.upload with e2 | rid
    · rw [hpost] at h
      simp only [Prod.mk.injEq, Option.some.injEq] at h
      obtain ⟨h1, _⟩ := h
      cases h1
      rcases post_error_shape env.upload e hpost with ⟨k, hk⟩ | ⟨m, hm⟩
      · exact Or.inl ⟨k, hk⟩
      · exact Or.inr (Or.inl ⟨m, hm⟩)
    · rw [hpost] at h
      rcases hpoll : (pollUntilReady env.statuses fuel 0).1 with _ | res
      · rw [hpoll] at h
        simp only [Prod.mk.injEq] at h
        cases h.1
      · rcases res with e2 | outputs
        · rw [hpoll] at h
          simp only [Prod.mk.injEq, Option.some.injEq] at h
          obtain ⟨h1, _⟩ := h
          cases h1
          rcases poll_error_shape env.statuses fuel 0 e (pollUntilReady env.statuses fuel 0).2
              (by rw [← hpoll]) with ⟨k, hk⟩ | hk
          · exact Or.inl ⟨k, hk⟩
          · exact Or.inr (Or.inr ⟨"output", hk⟩)
        · rw [hpoll] at h
          simp only [Prod.mk.injEq, Option.some.injEq] at h
          obtain ⟨h1, _⟩ := h
          rcases hdl : (download c env outputs).1 with e2 | files
          · rw [hdl] at h1
            cases h1
            rcases download_error_shape c env outputs e (download c env outputs).2
                (by rw [← hdl]) with ⟨k, hk⟩ | ⟨m, hm⟩
            · exact Or.inl ⟨k, hk⟩
            · exact Or.inr (Or.inl ⟨m, hm⟩)
          · rw [hdl] at h1
            cases h1
  refine ⟨?_, hshape⟩
  rcases hshape with ⟨k, hk⟩ | ⟨m, hm⟩ | ⟨s, hs⟩
  · rw [hk]; rfl
  · rw [hm]; rfl
  · rw [hs]; rfl

/-- Witness for C3: on the concrete environment answering the upload with a
500 error, the run fails with `HTTPError`, not a named exception. -/
theorem run_error_kinds_witness :
    isNamedMedrouterExn (.httpError 500) = false ∧
      ((∃ k, (PyExn.httpError 500) = .httpError k) ∨
        (∃ m, (PyExn.httpError 500) = .runtimeError m) ∨
        ∃ s, (PyExn.httpError 500) = .keyError s) :=
  run_error_kinds sampleClient env500 1 (.httpError 500) [.upload] rfl

/-- C10 (counterexample): the download operation can raise even when the
requested format key is present in the outputs dictionary: with the "nifti"
key present but the artifact GET answered 404, `_download` raises
`HTTPError`, refuting the claimed "if and only if the key is absent". -/
theorem download_fails_with_key_present :
    List.lookup "nifti" [("nifti", [("liver", "u")])] = some [("liver", "u")] ∧
    (download sampleClient badDownloadEnv [("nifti", [("liver", "u")])]).1 =
      .error (.httpError 404) := ⟨rfl, rfl⟩

/-- C10 (amended): the download operation raises an error exactly when the
requested download format key is absent from the outputs dictionary or some
download under that key is answered with a 4xx/5xx code; when the key is
present and all downloads succeed, it produces exactly one local file per
named URL under the key, named `<name>.nii.gz` when the format is "nifti"
and `<name>.stl` otherwise. -/
theorem download_error_iff_and_naming (c : Client) (env : Env) (outputs : Outputs) :
    ((∃ e, (download c env outputs).1 = .error e) ↔
      (List.lookup c.downloadFormat outputs = none ∨
        ∃ items, List.lookup c.downloadFormat outputs = some items ∧
          ∃ p ∈ items, raiseForStatus (env.downloadCode p.2) = true)) ∧
    ∀ items, List.lookup c.downloadFormat outputs = some items →
      (∀ p ∈ items, raiseForStatus (env.downloadCode p.2) = false) →
      (download c env outputs).1 =
        .ok (items.map fun p => (p.1, localName c.downloadFormat p.1)) := by
  constructor
  · rcases hl : List.lookup c.downloadFormat outputs with _ | items
    · constructor
      · intro _
        exact Or.inl rfl
      · intro _
        exact ⟨.runtimeError ("No " ++ c.downloadFormat ++ " outputs from server."),
          by simp [download, hl]⟩
    · simp only [download, hl]
      rw [downloadItems_error_iff]
      constructor
      · intro hex
        exact Or.inr ⟨items, rfl, hex⟩
      · rintro (hnone | ⟨items2, hi2, hex⟩)
        · cases hnone
        · cases hi2
          exact hex
  · intro items hl hgood
    simp only [download, hl, downloadItems_all_good env c.downloadFormat items hgood]

/-- Witness for C10: downloading the single "nifti" artifact of the dual
environment succeeds and produces the file `a.nii.gz`. -/
theorem download_error_iff_and_naming_witness :
    (download sampleClient dualEnv [("nifti", [("a", "u1")])]).1 =
      .ok [("a", "a.nii.gz")] :=
  (download_error_iff_and_naming sampleClient dualEnv [("nifti", [("a", "u1")])]).2
    [("a", "u1")] rfl (by decide)

/-- C4 (counterexample): a 304 upload response is non-2xx, yet
`raise_for_status` does not raise for it: the workflow proceeds past the
upload request, polls and downloads, and finishes without error. -/
theorem redirect_code_not_raised :
    (redirectEnv.upload.code < 200 ∨ 300 ≤ redirectEnv.upload.code) ∧
    runFuel sampleClient redirectEnv 1 =
      (some (.ok [("a", "a.nii.gz")]), [.upload, .statusGet 0, .download "u1"]) :=
  ⟨by decide, rfl⟩

/-- C4 (amended): for every HTTP request the workflow makes, if the response
code is 4xx/5xx (the codes `raise_for_status` raises on) then that request is
the last one made — the workflow does not proceed past it — and the run
fails with the corresponding `HTTPError`. -/
theorem http_error_stops_workflow (c : Client) (env : Env) (fuel : Nat) (req : Req)
    (hmem : req ∈ (runFuel c env fuel).2)
    (hbad : raiseForStatus (respCode env req) = true) :
    (∃ pre, (runFuel c env fuel).2 = pre ++ [req]) ∧
      (runFuel c env fuel).1 = some (.error (.httpError (respCode env req))) := by
  rcases hpost : post env.upload with e | rid
  · have hrun : runFuel c env fuel = (some (.error e), [.upload]) := by
      simp [runFuel, hpost]
    rw [hrun] at hmem ⊢
    have hreq : req = .upload := by simpa using hmem
    subst hreq
    have hpb : post env.upload = .error (.httpError env.upload.code) :=
      post_bad env.upload hbad
    rw [hpost] at hpb
    have he : e = .httpError env.upload.code := by injection hpb
    refine ⟨⟨[], rfl⟩, ?_⟩
    rw [he]
    rfl
  · have hgood : raiseForStatus env.upload.code = false := post_ok_code env.upload rid hpost
    rcases hpoll : (pollUntilReady env.statuses fuel 0).1 with _ | res
    · have hrun : runFuel c env fuel =
          (none, .upload :: (List.range (pollUntilReady env.statuses fuel 0).2).map Req.statusGet) := by
        simp [runFuel, hpost, hpoll]
      rw [hrun] at hmem
      rcases List.mem_cons.mp hmem with hreq | hreq
      · subst hreq
        exact absurd hbad (by simp [respCode, hgood])
      · obtain ⟨j, hj, hjeq⟩ := List.mem_map.mp hreq
        subst hjeq
        have hj2 := List.mem_range.mp hj
        have hlast := poll_bad_last env.statuses fuel 0 none
          (pollUntilReady env.statuses fuel 0).2 (by rw [← hpoll]) j hj2
          (by simpa [respCode] using hbad)
        cases hlast.2
    · rcases res with e | outputs
      · have hrun : runFuel c env fuel =
            (some (.error e),
              .upload :: (List.range (pollUntilReady env.statuses fuel 0).2).map Req.statusGet) := by
          simp [runFuel, hpost, hpoll]
        rw [hrun] at hmem ⊢
        rcases List.mem_cons.mp hmem with hreq | hreq
        · subst hreq
          exact absurd hbad (by simp [respCode, hgood])
        · obtain ⟨j, hj, hjeq⟩ := List.mem_map.mp hreq
          subst hjeq
          have hj2 := List.mem_range.mp hj
          have hlast := poll_bad_last env.statuses fuel 0 (some (.error e))
            (pollUntilReady env.statuses fuel 0).2 (by rw [← hpoll]) j hj2
            (by simpa [respCode] using hbad)
          obtain ⟨hn, heq⟩ := hlast
          have he : e = .httpError (env.statuses (0 + j)).code := by
            have := Option.some.inj heq
            injection this
          constructor
          · refine ⟨.upload :: (List.range j).map Req.statusGet, ?_⟩
            rw [← hn, List.range_succ, List.map_append]
            rfl
          · rw [he]
            simp [respCode]
      · have hrun : runFuel c env fuel =
            (some (download c env outputs).1,
              .upload :: (List.range (pollUntilReady env.statuses fuel 0).2).map Req.statusGet ++
                (download c env outputs).2.map Req.download) := by
          simp [runFuel, hpost, hpoll]
        rw [hrun] at hmem ⊢
        rcases List.mem_cons.mp hmem with hreq | hreq
        · subst hreq
          exact absurd hbad (by simp [respCode, hgood])
        · rcases List.mem_append.mp hreq with hreq2 | hreq2
          · obtain ⟨j, hj, hjeq⟩ := List.mem_map.mp hreq2
            subst hjeq
            have hj2 := List.mem_range.mp hj
            have hlast := poll_bad_last env.statuses fuel 0 (some (.ok outputs))
              (pollUntilReady env.statuses fuel 0).2 (by rw [← hpoll]) j hj2
              (by simpa [respCode] using hbad)
            cases hlast.2
          · obtain ⟨u, hu, hueq⟩ := List.mem_map.mp hreq2
            subst hueq
            rcases hlk : List.lookup c.downloadFormat outputs with _ | items
            · have hnil : (download c env outputs).2 = [] := by
                simp [download, hlk]
              rw [hnil] at hu
              cases hu
            · have hd : download c env outputs = downloadItems env c.downloadFormat items := by
                simp [download, hlk]
              have hlast := downloadItems_bad_last env c.downloadFormat items
                (download c env outputs).1 (download c env outputs).2 (by rw [← hd]) u hu
                (by simpa [respCode] using hbad)
              obtain ⟨⟨pre2, hpre⟩, hres⟩ := hlast
              constructor
              · refine ⟨.upload ::
                  (List.range (pollUntilReady env.statuses fuel 0).2).map Req.statusGet ++
                    pre2.map Req.download, ?_⟩
                rw [hpre, List.map_append]
                simp
              · rw [hres]
                simp [respCode]

/-- Witness for C4: in the environment answering the upload with 500, the
upload is the last (and only) request made and the run fails with
`HTTPError` 500. -/
theorem http_error_stops_workflow_witness :
    (∃ pre, (runFuel sampleClient env500 1).2 = pre ++ [Req.upload]) ∧
      (runFuel sampleClient env500 1).1 =
        some (.error (.httpError (respCode env500 .upload))) :=
  http_error_stops_workflow sampleClient env500 1 .upload (by decide) (by decide)

theorem trace_filterMap (n : Nat) (us : List String) :
    (Req.upload :: ((List.range n).map Req.statusGet ++ us.map Req.download)).filterMap reqUrl
      = us := by
  simp [List.filterMap_cons, List.filterMap_append, List.filterMap_map, reqUrl,
    Function.comp_def, List.filterMap_eq_nil_iff]

/-- C6 (counterexample): with outputs offered under both the "nifti" and the
"stl" keys and download format "nifti", the URLs downloaded are exactly the
ones under the "nifti" key: "u2", although present in the `output` field of
the processed response, is never downloaded — so the downloaded URLs are not
all the URLs of the output field. -/
theorem download_restricted_to_format_key :
    (dualEnv.statuses 0).status = some "processed" ∧
    (dualEnv.statuses 0).output =
      some [("nifti", [("a", "u1")]), ("stl", [("b", "u2")])] ∧
    (runFuel sampleClient dualEnv 1).2.filterMap reqUrl = ["u1"] ∧
    "u2" ∉ (runFuel sampleClient dualEnv 1).2.filterMap reqUrl :=
  ⟨rfl, rfl, rfl, by decide⟩

/-- C6 (amended): in every run, download requests occur only after a status
response with status "processed": the request trace splits into a
download-free prefix containing such a status query and a suffix of
downloads.  When the run succeeds, the downloaded URLs are exactly the ones
under the configured download-format key of the `output` field of that
processed response. -/
theorem downloads_follow_processed (c : Client) (env : Env) (fuel : Nat) :
    (∀ u, Req.download u ∈ (runFuel c env fuel).2 →
      ∃ pre suf, (runFuel c env fuel).2 = pre ++ suf ∧ Req.download u ∈ suf ∧
        (∀ r ∈ pre, reqUrl r = none) ∧ (∀ r ∈ suf, ∃ v, r = Req.download v) ∧
        ∃ j, Req.statusGet j ∈ pre ∧ (env.statuses j).status = some "processed") ∧
    (∀ files, (runFuel c env fuel).1 = some (.ok files) →
      ∃ j o items, (env.statuses j).status = some "processed" ∧
        (env.statuses j).output = some o ∧
        List.lookup c.downloadFormat o = some items ∧
        (runFuel c env fuel).2.filterMap reqUrl = items.map Prod.snd ∧
        files = items.map fun p => (p.1, localName c.downloadFormat p.1)) := by
  rcases hpost : post env.upload with e | rid
  · have hrun : runFuel c env fuel = (some (.error e), [.upload]) := by
      simp [runFuel, hpost]
    constructor
    · intro u hu
      rw [hrun] at hu
      simp at hu
    · intro files hf
      rw [hrun] at hf
      simp at hf
  · rcases hpoll : (pollUntilReady env.statuses fuel 0).1 with _ | res
    · have hrun : runFuel c env fuel =
          (none, .upload :: (List.range (pollUntilReady env.statuses fuel 0).2).map Req.statusGet) := by
        simp [runFuel, hpost, hpoll]
      constructor
      · intro u hu
        rw [hrun] at hu
        rcases List.mem_cons.mp hu with h1 | h1
        · cases h1
        · obtain ⟨j, _, hj⟩ := List.mem_map.mp h1
          cases hj
      · intro files hf
        rw [hrun] at hf
        cases hf
    · rcases res with e | outputs
      · have hrun : runFuel c env fuel =
            (some (.error e),
              .upload :: (List.range (pollUntilReady env.statuses fuel 0).2).map Req.statusGet) := by
          simp [runFuel, hpost, hpoll]
        constructor
        · intro u hu
          rw [hrun] at hu
          rcases List.mem_cons.mp hu with h1 | h1
          · cases h1
          · obtain ⟨j, _, hj⟩ := List.mem_map.mp h1
            cases hj
        · intro files hf
          rw [hrun] at hf
          simp at hf
      · have hrun : runFuel c env fuel =
            (some (download c env outputs).1,
              .upload :: ((List.range (pollUntilReady env.statuses fuel 0).2).map Req.statusGet ++
                (download c env outputs).2.map Req.download)) := by
          simp [runFuel, hpost, hpoll]
        have hpp := poll_ok_processed env.statuses fuel 0 outputs
          (pollUntilReady env.statuses fuel 0).2 (by rw [← hpoll])
        obtain ⟨hn1, hst, hout, _⟩ := hpp
        constructor
        · intro u hu
          refine ⟨.upload ::
              (List.range (pollUntilReady env.statuses fuel 0).2).map Req.statusGet,
            (download c env outputs).2.map Req.download, ?_, ?_, ?_, ?_, ?_⟩
          · rw [hrun]
            simp
          · rw [hrun] at hu
            rcases List.mem_cons.mp hu with h1 | h1
            · cases h1
            · rcases List.mem_append.mp h1 with h2 | h2
              · obtain ⟨j, _, hj⟩ := List.mem_map.mp h2
                cases hj
              · exact h2
          · intro r hr
            rcases List.mem_cons.mp hr with h1 | h1
            · rw [h1]
              rfl
            · obtain ⟨j, _, hj⟩ := List.mem_map.mp h1
              rw [← hj]
              rfl
          · intro r hr
            obtain ⟨v, _, hv⟩ := List.mem_map.mp hr
            exact ⟨v, hv.symm⟩
          · refine ⟨(pollUntilReady env.statuses fuel 0).2 - 1, ?_, ?_⟩
            · exact List.mem_cons_of_mem _
                (List.mem_map_of_mem _ (List.mem_range.mpr (by omega)))
            · simpa using hst
        · intro files hf
          rw [hrun] at hf
          simp only [Option.some.injEq] at hf
          rcases hlk : List.lookup c.downloadFormat outputs with _ | items
          · have hne : (download c env outputs).1 =
                .error (.runtimeError ("No " ++ c.downloadFormat ++ " outputs from server.")) := by
              simp [download, hlk]
            rw [hne] at hf
            cases hf
          · have hd : download c env outputs = downloadItems env c.downloadFormat items := by
              simp [download, hlk]
            have hok := downloadItems_ok env c.downloadFormat items files
              (download c env outputs).2 (by rw [← hd, ← hf])
            obtain ⟨hfiles, hurls, _⟩ := hok
            refine ⟨(pollUntilReady env.statuses fuel 0).2 - 1, outputs, items,
              by simpa using hst, by simpa using hout, hlk, ?_, hfiles⟩
            rw [hrun]
            rw [trace_filterMap (pollUntilReady env.statuses fuel 0).2 (download c env outputs).2]
            exact hurls

/-- Witness for C6: in the dual-key environment the run succeeds; the
theorem produces the processed status response, its outputs and the
downloaded items under the "nifti" key. -/
theorem downloads_follow_processed_witness :
    ∃ j o items, (dualEnv.statuses j).status = some "processed" ∧
      (dualEnv.statuses j).output = some o ∧
      List.lookup sampleClient.downloadFormat o = some items ∧
      (runFuel sampleClient dualEnv 1).2.filterMap reqUrl = items.map Prod.snd ∧
      [("a", "a.nii.gz")] = items.map fun p => (p.1, localName sampleClient.downloadFormat p.1) :=
  (downloads_follow_processed sampleClient dualEnv 1).2 [("a", "a.nii.gz")] rfl

end MedRouter
